import Mathlib

/-!
Verification of the buffer-sizing and orchestration logic of a Go zstd wrapper
(package `zstd`, file `zstd.go`).

The native compression engine (libzstd), the error classifier (`getError`,
`IsDstSizeTooSmallError`, defined in the repository outside the file at hand)
and the streaming fallback reader are external collaborators.  They are
modelled by an abstract `Native` record of the four primitive operations plus
error introspection, exactly the collaborator surface of the spec (section 6).
Every Go function of `zstd.go` is translated into a Lean function parametrised
by such a record; buffers are modelled as lists of byte values, with a slice's
capacity carried separately where the code distinguishes it from the length.

Go `int` is 64-bit and signed; none of the arithmetic in `zstd.go` can
overflow for lengths of real slices, so sizes are modelled as `Nat`/`Int`,
except the cast of the C `unsigned long long` frame content size to Go `int`,
which is modelled exactly (two's-complement wrap, `toInt64`), because the
"unknown size" sentinels of the native engine rely on it.
-/

/-- A byte buffer's contents: the model never inspects byte values, only
lengths and equality, so bytes are plain naturals. -/
abbrev ByteSeq := List Nat

/-- The error taxonomy of the package (spec section 7): the empty-source error
(`ErrEmptySlice` of `zstd.go`), the destination-too-small error that the
classifier distinguishes with a dedicated kind, and any other native-engine
failure carrying the engine's diagnostic name. -/
inductive ZstdError where
  | emptySlice
  | dstSizeTooSmall
  | codec (name : String)
  deriving DecidableEq

/-- The external collaborators of `zstd.go` (spec section 6): the four native
primitives plus error introspection and the streaming fallback reader.
`compress`, `decompress` return the status already cast to Go `int` (an `Int`)
together with the contents of the destination buffer after the call;
`compress2` is the fixed-profile batch compression on the shared context (its
status is a C `size_t`, a `Nat`); `frameContentSizeU` is the raw C
`unsigned long long` returned by `ZSTD_getFrameContentSize`; `isError` /
`isDstTooSmall` / `errorName` classify `int` status codes, `isErrorU` /
`errorNameU` classify `size_t` status codes (`ZSTD_isError`,
`ZSTD_getErrorName`); `streamReadAll` is `ioutil.ReadAll` over `NewReader`,
returning the Go pair (bytes, error). -/
structure Native where
  compress : Nat → ByteSeq → Int → Int × ByteSeq
  compress2 : Nat → ByteSeq → Nat × ByteSeq
  decompress : Nat → ByteSeq → Int × ByteSeq
  frameContentSizeU : ByteSeq → Nat
  isError : Int → Bool
  isDstTooSmall : Int → Bool
  errorName : Int → String
  isErrorU : Nat → Bool
  errorNameU : Nat → String
  streamReadAll : ByteSeq → Option ByteSeq × Option ZstdError

/-- The cast of a C `unsigned long long` to Go `int` (64-bit two's
complement), as performed by `int(C.ZSTD_getFrameContentSize(...))` in
`decompressSizeHint`. -/
def toInt64 (u : Nat) : Int :=
  if u % 2 ^ 64 < 2 ^ 63 then ((u % 2 ^ 64 : Nat) : Int)
  else ((u % 2 ^ 64 : Nat) : Int) - 2 ^ 64

/-- `BestSpeed = 1` (zstd.go line 22). -/
def BestSpeed : Int := 1

/-- `BestCompression = 20` (zstd.go line 23). -/
def BestCompression : Int := 20

/-- `DefaultCompression = 5` (zstd.go line 24). -/
def DefaultCompression : Int := 5

/-- `decompressSizeBufferLimit = 1000 * 1000` (zstd.go line 38). -/
def decompressSizeBufferLimit : Int := 1000 * 1000

/-- `zstdFrameHeaderSizeMin = 2` (zstd.go line 40). -/
def zstdFrameHeaderSizeMin : Nat := 2

/-- `CompressBound` (zstd.go lines 96-103).  The Go local
`lowLimit := 128 << 10` is inlined; the mutable `margin` (zero unless
`srcSize < lowLimit`) becomes the conditional term. -/
def CompressBound (srcSize : Nat) : Nat :=
  srcSize + (srcSize >>> 8) +
    (if srcSize < 128 <<< 10 then ((128 <<< 10) - srcSize) >>> 11 else 0)

/-- Modelled from the spec: `cCompressBound` (zstd.go lines 106-108) calls the
native `ZSTD_compressBound`, whose code is not part of this repository's
sources; the spec (section 4.1) gives the reference formula: with
`lowLimit = 131072`, `margin = (lowLimit - srcSize) >> 11` when
`srcSize < lowLimit` and `0` otherwise, the bound is
`srcSize + (srcSize >> 8) + margin`. -/
def cCompressBound (srcSize : Nat) : Nat :=
  srcSize + (srcSize >>> 8) +
    (if srcSize < 131072 then (131072 - srcSize) >>> 11 else 0)

/-- The `upperBound` computed at the top of `decompressSizeHint`
(zstd.go lines 113-117): `10 * len(src)`, raised to
`decompressSizeBufferLimit` when below it. -/
def decompressUpperBound (src : ByteSeq) : Int :=
  if 10 * (src.length : Int) < decompressSizeBufferLimit then
    decompressSizeBufferLimit
  else 10 * (src.length : Int)

/-- The value of the mutable `hint` of `decompressSizeHint` after the
`if hint < 0` reassignment (zstd.go lines 121-124): the frame content size
cast to Go `int`, replaced by `upperBound` when negative. -/
def hintAfterErrCheck (na : Native) (src : ByteSeq) : Int :=
  if toInt64 (na.frameContentSizeU src) < 0 then decompressUpperBound src
  else toInt64 (na.frameContentSizeU src)

/-- The value of `hint` before the final clamp (zstd.go lines 119-128):
`upperBound` when `len(src)` is below the minimal frame-header size,
otherwise the frame content size after the `< 0` and `== 0` reassignments. -/
def decompressRawHint (na : Native) (src : ByteSeq) : Int :=
  if zstdFrameHeaderSizeMin ≤ src.length then
    if hintAfterErrCheck na src = 0 then 1 else hintAfterErrCheck na src
  else decompressUpperBound src

/-- `decompressSizeHint` (zstd.go lines 112-135): the raw hint clamped from
above by `upperBound` (lines 130-134). -/
def decompressSizeHint (na : Native) (src : ByteSeq) : Int :=
  if decompressUpperBound src < decompressRawHint na src then
    decompressUpperBound src
  else decompressRawHint na src

/-- Modelled from the spec: `getError` lives in the repository outside
`zstd.go`; per the spec (section 4.2) the classifier agrees with the native
is-error predicate and maps an error code to a typed error carrying the native
diagnostic name, with the destination-too-small case distinguished as a
dedicated kind identifiable by a predicate. -/
def getError (na : Native) (code : Int) : Option ZstdError :=
  if na.isError code then
    if na.isDstTooSmall code then some ZstdError.dstSizeTooSmall
    else some (ZstdError.codec (na.errorName code))
  else none

/-- Modelled from the spec: the `is_insufficient_destination_error` predicate
(spec section 6), a structural test on the error value, never a string match;
its argument is the Go `error` interface value, hence possibly `nil`
(`none`). -/
def IsDstSizeTooSmallError : Option ZstdError → Bool
  | some ZstdError.dstSizeTooSmall => true
  | _ => false

/-- `checkError` (zstd.go lines 164-169): classifies a C `size_t` status with
`ZSTD_isError` and wraps the native error name in a generic error value. -/
def checkError (na : Native) (code : Nat) : Option ZstdError :=
  if na.isErrorU code then some (ZstdError.codec (na.errorNameU code)) else none

/-- The native call and classification of `DecompressInto`
(zstd.go lines 244-251) once the pointer arguments have been formed: one
`ZSTD_decompress` call into a destination of length `dstLen`, returning the
Go pair `(written, getError(written))`; the middle component records the
destination buffer's contents after the call, which in Go persist in the
caller's slice.  This covers exactly the operands for which `&dst[0]` and
`&src[0]` succeed (both buffers non-empty) — `Decompress` only reaches it
with a checked non-empty source and a destination of length at least 1
(`decompressDstLen`).  The pointer formation itself, including the Go panic
on a zero-length buffer, is `decompressIntoPtrs`, and the full exported
function is `DecompressIntoCall` below. -/
def DecompressInto (na : Native) (dstLen : Nat) (src : ByteSeq) :
    Int × ByteSeq × Option ZstdError :=
  ((na.decompress dstLen src).1, (na.decompress dstLen src).2,
    getError na (na.decompress dstLen src).1)

/-- The length of the destination slice `Decompress` passes to
`DecompressInto` (zstd.go lines 216-221): the caller's buffer extended to its
full capacity when that capacity reaches the hint (`dst = dst[0:cap(dst)]`),
otherwise a fresh buffer of exactly `bound` bytes. -/
def decompressDstLen (na : Native) (dstCap : Nat) (src : ByteSeq) : Nat :=
  if decompressSizeHint na src ≤ (dstCap : Int) then dstCap
  else (decompressSizeHint na src).toNat

/-- `Decompress` (zstd.go lines 211-235).  The result is the Go pair
(buffer, error); `(some [], some .emptySlice)` is the literal
`return []byte{}, ErrEmptySlice`, and `(none, e)` is `return nil, err`.
On success the destination is truncated to the written count
(`dst[:written]`); on a destination-too-small failure the streaming fallback
`ioutil.ReadAll(NewReader(bytes.NewReader(src)))` is returned verbatim. -/
def Decompress (na : Native) (dstCap : Nat) (src : ByteSeq) :
    Option ByteSeq × Option ZstdError :=
  if src.length = 0 then (some [], some ZstdError.emptySlice)
  else if (DecompressInto na (decompressDstLen na dstCap src) src).2.2 = none then
    (some ((DecompressInto na (decompressDstLen na dstCap src) src).2.1.take
      (DecompressInto na (decompressDstLen na dstCap src) src).1.toNat), none)
  else if IsDstSizeTooSmallError
      (DecompressInto na (decompressDstLen na dstCap src) src).2.2 then
    na.streamReadAll src
  else (none, (DecompressInto na (decompressDstLen na dstCap src) src).2.2)

/-- `CompressLevel` (zstd.go lines 172-206).  Both branches of the capacity
test (reuse `dst[0:bound]` or `make([]byte, bound)`) hand the native call a
destination of length `bound = CompressBound(len(src))`, so the model passes
`bound` directly; `dstCap` is kept to mirror the Go signature.  The two
`ZSTD_compress` call sites (null source pointer for empty input, address of
the first byte otherwise) perform the same logical call; the pointer-level
distinction is modelled separately by `compressLevelSrcPtr`.  On an error
status the Go code returns `nil, err`. -/
def CompressLevel (na : Native) (dstCap : Nat) (src : ByteSeq) (level : Int) :
    Option ByteSeq × Option ZstdError :=
  if getError na (na.compress (CompressBound src.length) src level).1 = none then
    (some ((na.compress (CompressBound src.length) src level).2.take
      (na.compress (CompressBound src.length) src level).1.toNat), none)
  else (none, getError na (na.compress (CompressBound src.length) src level).1)

/-- `Compress` (zstd.go lines 140-142): `CompressLevel` at
`DefaultCompression`. -/
def Compress (na : Native) (dstCap : Nat) (src : ByteSeq) :
    Option ByteSeq × Option ZstdError :=
  CompressLevel na dstCap src DefaultCompression

/-- `CompressScrollBatchBytes` (zstd.go lines 145-162): empty input returns
`[]byte{}, nil` before any native call; otherwise a destination of exactly
`len(src)` bytes is allocated, `ZSTD_compress2` is invoked on the shared
fixed-profile context, and on success the destination is truncated to the
returned count (`dst[:result]`). -/
def CompressScrollBatchBytes (na : Native) (src : ByteSeq) :
    Option ByteSeq × Option ZstdError :=
  if src.length = 0 then (some [], none)
  else if checkError na (na.compress2 src.length src).1 = none then
    (some (((na.compress2 src.length src).2).take
      (na.compress2 src.length src).1), none)
  else (none, checkError na (na.compress2 src.length src).1)

/-- A pointer argument of a cgo call: either the explicit null pointer or the
address of the first element of a (necessarily non-empty) buffer. -/
inductive CPtr where
  | null
  | ref (buf : ByteSeq)
  deriving DecidableEq

/-- The source pointer `CompressLevel` passes to `ZSTD_compress`
(zstd.go lines 183-198): `unsafe.Pointer(nil)` when `len(src) == 0`,
`unsafe.Pointer(&src[0])` otherwise (the length argument is `len(src)` in
both branches). -/
def compressLevelSrcPtr (src : ByteSeq) : CPtr :=
  if src.length = 0 then CPtr.null else CPtr.ref src

/-- Taking the address of the first element of a Go slice (`&buf[0]`):
defined only for non-empty slices — on an empty slice Go raises an
index-out-of-range panic before any native call, modelled as `none`. -/
def addrFirst (buf : ByteSeq) : Option CPtr :=
  if buf.length = 0 then none else some (CPtr.ref buf)

/-- The pair of pointer arguments `DecompressInto` passes to
`ZSTD_decompress` (zstd.go lines 245-249): unconditionally
`&dst[0]` and `&src[0]`, with no zero-length special case; `none` records the
Go panic raised when either buffer is empty, in which case no native call is
issued. -/
def decompressIntoPtrs (dst src : ByteSeq) : Option (CPtr × CPtr) :=
  match addrFirst dst, addrFirst src with
  | some pd, some ps => some (pd, ps)
  | _, _ => none

/-- The exported `DecompressInto` (zstd.go lines 244-251) with the Go panic
made explicit: the call unconditionally evaluates `&dst[0]` and `&src[0]`
(`decompressIntoPtrs`), so with an empty destination or source it panics —
`none`, nothing is returned and no native call is issued; otherwise it
performs the native call on the destination's length and returns the
classified Go pair (`DecompressInto`). -/
def DecompressIntoCall (na : Native) (dst src : ByteSeq) :
    Option (Int × ByteSeq × Option ZstdError) :=
  match decompressIntoPtrs dst src with
  | none => none
  | some _ => some (DecompressInto na dst.length src)

/-- Modelled from the spec: the native one-shot compression contract
(spec section 6) at a given input `s`, level, and compressed payload `c`:
with any sufficiently large destination the call reports `len(c)` bytes
written, the destination then holds `c` as a prefix, the success count is not
an error code, and compressed payloads are non-empty frames; the payload fits
the reference bound. -/
structure CompressOK (na : Native) (s : ByteSeq) (level : Int) (c : ByteSeq) : Prop where
  status : (na.compress (CompressBound s.length) s level).1 = (c.length : Int)
  out : ((na.compress (CompressBound s.length) s level).2).take c.length = c
  ok : na.isError (c.length : Int) = false
  nonempty : c ≠ []

/-- Modelled from the spec: the native one-shot decompression contract
(spec sections 4.3 and 6) for a payload `c` of plaintext `s`: with a
destination of at least `len(s)` bytes the call reports `len(s)` bytes
written and the destination holds `s` as a prefix; with a smaller destination
it fails with the status the classifier marks destination-too-small; the
streaming fallback reader drains `c` to exactly `s`. -/
structure DecompressOK (na : Native) (c s : ByteSeq) : Prop where
  nonempty : c ≠ []
  big : ∀ d, s.length ≤ d →
    (na.decompress d c).1 = (s.length : Int) ∧
      ((na.decompress d c).2).take s.length = s
  ok : na.isError (s.length : Int) = false
  small : ∀ d, d < s.length →
    na.isError (na.decompress d c).1 = true ∧
      na.isDstTooSmall (na.decompress d c).1 = true
  stream : na.streamReadAll c = (some s, none)

/-- Modelled from the spec: "levels outside this range are rejected by the
native engine and surfaced as an error, not silently clamped"
(spec section 3, CompressionLevel): `ZSTD_compress` returns an error status
whenever the level is outside `[BestSpeed, BestCompression]`. -/
def RejectsInvalidLevels (na : Native) : Prop :=
  ∀ (d : Nat) (s : ByteSeq) (level : Int),
    level < BestSpeed ∨ BestCompression < level →
      na.isError (na.compress d s level).1 = true

/-- A concrete engine used to instantiate theorems with hypotheses: it
compresses everything to the two-byte payload `[1, 7]`, decompresses any
payload to the single byte `7` (failing with status `-70` when the
destination cannot hold it), reports an unknown frame content size, and its
streaming reader also yields `[7]`. -/
def natW : Native where
  compress := fun d _ _ => ((2 : Int), 1 :: 7 :: List.replicate (d - 2) 0)
  compress2 := fun d _ => (d, List.replicate d 0)
  decompress := fun d _ =>
    if 1 ≤ d then ((1 : Int), 7 :: List.replicate (d - 1) 0)
    else ((-70 : Int), [])
  frameContentSizeU := fun _ => 2 ^ 64 - 1
  isError := fun code => decide (code < 0)
  isDstTooSmall := fun code => decide (code = -70)
  errorName := fun _ => "zerr"
  isErrorU := fun _ => false
  errorNameU := fun _ => ""
  streamReadAll := fun _ => (some [7], none)

/-- A concrete engine whose one-shot decompression always fails with the
destination-too-small status `-70`, forcing the streaming fallback. -/
def natE : Native where
  compress := fun _ _ _ => ((2 : Int), [1, 7])
  compress2 := fun d _ => (d, List.replicate d 0)
  decompress := fun _ _ => ((-70 : Int), [])
  frameContentSizeU := fun _ => 2 ^ 64 - 1
  isError := fun code => decide (code < 0)
  isDstTooSmall := fun code => decide (code = -70)
  errorName := fun _ => "zerr"
  isErrorU := fun _ => false
  errorNameU := fun _ => ""
  streamReadAll := fun _ => (some [7], none)

/-- A concrete engine that rejects compression levels outside
`[BestSpeed, BestCompression]` with the error status `-42`. -/
def natR : Native where
  compress := fun d _ level =>
    if BestSpeed ≤ level ∧ level ≤ BestCompression then
      ((2 : Int), 1 :: 7 :: List.replicate (d - 2) 0)
    else ((-42 : Int), List.replicate d 0)
  compress2 := fun d _ => (d, List.replicate d 0)
  decompress := fun _ _ => ((-70 : Int), [])
  frameContentSizeU := fun _ => 2 ^ 64 - 1
  isError := fun code => decide (code < 0)
  isDstTooSmall := fun code => decide (code = -70)
  errorName := fun _ => "zerr"
  isErrorU := fun _ => false
  errorNameU := fun _ => ""
  streamReadAll := fun _ => (some [7], none)

/-- A concrete engine whose decompression of any payload yields the empty
plaintext: every destination suffices, the native call reports 0 bytes
written, and the streaming reader also drains to nothing. -/
def natZ : Native where
  compress := fun _ _ _ => ((2 : Int), [1, 7])
  compress2 := fun d _ => (d, List.replicate d 0)
  decompress := fun d _ => ((0 : Int), List.replicate d 0)
  frameContentSizeU := fun _ => 2 ^ 64 - 1
  isError := fun code => decide (code < 0)
  isDstTooSmall := fun code => decide (code = -70)
  errorName := fun _ => "zerr"
  isErrorU := fun _ => false
  errorNameU := fun _ => ""
  streamReadAll := fun _ => (some [], none)

lemma decompressUpperBound_eq_max (src : ByteSeq) :
    decompressUpperBound src = max (10 * (src.length : Int)) 1000000 := by
  unfold decompressUpperBound decompressSizeBufferLimit
  rw [max_def]
  split_ifs <;> omega

lemma le_decompressUpperBound (src : ByteSeq) :
    (1000000 : Int) ≤ decompressUpperBound src := by
  unfold decompressUpperBound decompressSizeBufferLimit
  split_ifs <;> omega

lemma decompressSizeHint_eq_min (na : Native) (src : ByteSeq) :
    decompressSizeHint na src =
      min (if 2 ≤ src.length ∧ 0 ≤ toInt64 (na.frameContentSizeU src) then
             (if toInt64 (na.frameContentSizeU src) = 0 then 1
              else toInt64 (na.frameContentSizeU src))
           else decompressUpperBound src)
        (decompressUpperBound src) := by
  have hub := le_decompressUpperBound src
  unfold decompressSizeHint decompressRawHint hintAfterErrCheck
    zstdFrameHeaderSizeMin
  rw [min_def]
  split_ifs <;> omega

lemma one_le_decompressSizeHint (na : Native) (src : ByteSeq) :
    1 ≤ decompressSizeHint na src := by
  have hub := le_decompressUpperBound src
  unfold decompressSizeHint decompressRawHint hintAfterErrCheck
    zstdFrameHeaderSizeMin
  split_ifs <;> omega

lemma one_le_decompressDstLen (na : Native) (dstCap : Nat) (src : ByteSeq) :
    1 ≤ decompressDstLen na dstCap src := by
  have h := one_le_decompressSizeHint na src
  unfold decompressDstLen
  split_ifs with hc
  · omega
  · omega

lemma decompressSizeHint_le_dstLen (na : Native) (dstCap : Nat) (src : ByteSeq) :
    decompressSizeHint na src ≤ (decompressDstLen na dstCap src : Int) := by
  have h := one_le_decompressSizeHint na src
  unfold decompressDstLen
  split_ifs with hc
  · omega
  · omega

lemma compressBound_ge_64 (n : Nat) : 64 ≤ CompressBound n := by
  unfold CompressBound
  have hsl : (128 <<< 10 : Nat) = 131072 := by decide
  rw [hsl, Nat.shiftRight_eq_div_pow]
  split_ifs with h
  · rw [Nat.shiftRight_eq_div_pow]
    have e1 : (2 : Nat) ^ 8 = 256 := by norm_num
    have e2 : (2 : Nat) ^ 11 = 2048 := by norm_num
    rw [e1, e2]
    omega
  · omega

lemma Decompress_of_ok (na : Native) (dstCap : Nat) (c s : ByteSeq)
    (hd : DecompressOK na c s) : Decompress na dstCap c = (some s, none) := by
  have h0 : c.length ≠ 0 := fun h => hd.nonempty (List.length_eq_zero.mp h)
  unfold Decompress
  rw [if_neg h0]
  by_cases hbig : s.length ≤ decompressDstLen na dstCap c
  · obtain ⟨h1, h2⟩ := hd.big _ hbig
    have hInto2 : (DecompressInto na (decompressDstLen na dstCap c) c).2.2 = none := by
      simp [DecompressInto, h1, getError, hd.ok]
    rw [hInto2, if_pos rfl]
    have hInto1 : (DecompressInto na (decompressDstLen na dstCap c) c).1 =
        (s.length : Int) := h1
    rw [hInto1]
    have ht : ((s.length : Int)).toNat = s.length := by omega
    rw [ht]
    have hInto3 : (DecompressInto na (decompressDstLen na dstCap c) c).2.1 =
        (na.decompress (decompressDstLen na dstCap c) c).2 := rfl
    rw [hInto3, h2]
  · push_neg at hbig
    obtain ⟨he, ht⟩ := hd.small _ hbig
    have hInto : (DecompressInto na (decompressDstLen na dstCap c) c).2.2 =
        some ZstdError.dstSizeTooSmall := by
      simp [DecompressInto, getError, he, ht]
    rw [hInto]
    rw [if_neg (by simp)]
    rw [if_pos (by simp [IsDstSizeTooSmallError])]
    exact hd.stream

lemma natW_compressOK (level : Int) : CompressOK natW [7] level [1, 7] := by
  refine ⟨?_, ?_, ?_, ?_⟩
  · simp [natW]
  · simp [natW, List.take_succ_cons]
  · simp [natW]
  · simp

lemma natW_decompressOK : DecompressOK natW [1, 7] [7] := by
  refine ⟨?_, ?_, ?_, ?_, ?_⟩
  · simp
  · intro d hd
    have h1 : 1 ≤ d := by simpa using hd
    simp [natW, h1, List.take_succ_cons]
  · simp [natW]
  · intro d hd
    have h0 : d = 0 := by simpa [Nat.lt_one_iff] using hd
    subst h0
    simp [natW]
  · rfl

lemma natR_rejects : RejectsInvalidLevels natR := by
  intro d s level h
  have hnot : ¬ (BestSpeed ≤ level ∧ level ≤ BestCompression) := by
    unfold BestSpeed BestCompression at h ⊢
    rcases h with h | h <;> omega
  simp [natR, hnot]

lemma decompressIntoPtrs_nil_left (src : ByteSeq) :
    decompressIntoPtrs [] src = none := by
  unfold decompressIntoPtrs
  cases h : addrFirst src <;> rfl

lemma decompressIntoPtrs_of_ne (dst src : ByteSeq) (hd : dst ≠ [])
    (hs : src ≠ []) :
    decompressIntoPtrs dst src = some (CPtr.ref dst, CPtr.ref src) := by
  have hd0 : dst.length ≠ 0 := fun h => hd (List.length_eq_zero.mp h)
  have hs0 : src.length ≠ 0 := fun h => hs (List.length_eq_zero.mp h)
  unfold decompressIntoPtrs addrFirst
  rw [if_neg hd0, if_neg hs0]

lemma natZ_decompressOK : DecompressOK natZ [1, 7] [] := by
  refine ⟨?_, ?_, ?_, ?_, ?_⟩
  · simp
  · intro d _
    constructor
    · simp [natZ]
    · simp
  · simp [natZ]
  · intro d hd
    simp at hd
  · rfl

/-- Claim C1: for every non-empty byte sequence `src`, `decompressSizeHint src`
equals `min(declaredOrFallback, upperBound)` with
`upperBound = max(10 * len(src), 1000000)`, where `declaredOrFallback` is the
declared frame content size when `len(src) >= 2` and the read succeeds (a
declared size of exactly 0 coerced to 1) and `upperBound` otherwise; in
particular the hint never exceeds `upperBound`. -/
theorem decompressSizeHint_spec (na : Native) (src : ByteSeq) (hsrc : src ≠ []) :
    decompressSizeHint na src =
      min (if 2 ≤ src.length ∧ 0 ≤ toInt64 (na.frameContentSizeU src) then
             (if toInt64 (na.frameContentSizeU src) = 0 then 1
              else toInt64 (na.frameContentSizeU src))
           else max (10 * (src.length : Int)) 1000000)
        (max (10 * (src.length : Int)) 1000000) ∧
    decompressSizeHint na src ≤ max (10 * (src.length : Int)) 1000000 := by
  rw [← decompressUpperBound_eq_max]
  refine ⟨decompressSizeHint_eq_min na src, ?_⟩
  rw [decompressSizeHint_eq_min na src]
  exact min_le_right _ _

/-- Witness for `decompressSizeHint_spec` at the engine `natW` (unknown frame
content size) and the two-byte source `[3, 4]`. -/
theorem decompressSizeHint_spec_witness :
    decompressSizeHint natW [3, 4] =
      min (if 2 ≤ ([3, 4] : ByteSeq).length ∧
              0 ≤ toInt64 (natW.frameContentSizeU [3, 4]) then
             (if toInt64 (natW.frameContentSizeU [3, 4]) = 0 then 1
              else toInt64 (natW.frameContentSizeU [3, 4]))
           else max (10 * ((([3, 4] : ByteSeq)).length : Int)) 1000000)
        (max (10 * ((([3, 4] : ByteSeq)).length : Int)) 1000000) ∧
    decompressSizeHint natW [3, 4] ≤
      max (10 * ((([3, 4] : ByteSeq)).length : Int)) 1000000 :=
  decompressSizeHint_spec natW [3, 4] (by decide)

/-- Claim C2: for every non-negative size, `CompressBound` equals
`srcSize + (srcSize >> 8) + margin` with `margin = (131072 - srcSize) >> 11`
below `131072` and `0` above, and agrees with the native reference bound
(`cCompressBound`, modelled from the spec's reference formula). -/
theorem compressBound_formula (n : Nat) :
    CompressBound n =
      n + (n >>> 8) + (if n < 131072 then (131072 - n) >>> 11 else 0) ∧
    CompressBound n = cCompressBound n := by
  have hsl : (128 <<< 10 : Nat) = 131072 := by decide
  unfold CompressBound cCompressBound
  rw [hsl]
  exact ⟨rfl, rfl⟩

/-- Claim C5: decompressing an empty source returns the pair
`([]byte{}, ErrEmptySlice)` for every engine and destination capacity — the
result does not depend on the native engine, so no native call is involved,
and the error component is non-nil, distinct from a successful decompression
to an empty result. -/
theorem decompress_empty (na : Native) (dstCap : Nat) :
    Decompress na dstCap [] = (some [], some ZstdError.emptySlice) := rfl

/-- Claim C10: every native call of `CompressLevel` and `Decompress` receives
a destination of non-zero length: `CompressBound` is at least 64 on every
size (and `CompressLevel`'s destination always has length
`CompressBound (len src)`), `decompressSizeHint` is at least 1 on every
non-empty source, the destination length `Decompress` passes down is at least
1, and the buffer-reuse branch only accepts a caller buffer whose capacity is
at least the hint (the destination length always dominates the hint). -/
theorem nativeDst_nonzero :
    (∀ n : Nat, 64 ≤ CompressBound n) ∧
    (∀ (na : Native) (src : ByteSeq), src ≠ [] →
      1 ≤ decompressSizeHint na src) ∧
    (∀ (na : Native) (dstCap : Nat) (src : ByteSeq), src ≠ [] →
      1 ≤ decompressDstLen na dstCap src) ∧
    (∀ (na : Native) (dstCap : Nat) (src : ByteSeq),
      decompressSizeHint na src ≤ (decompressDstLen na dstCap src : Int)) :=
  ⟨compressBound_ge_64,
   fun na src _ => one_le_decompressSizeHint na src,
   fun na dstCap src _ => one_le_decompressDstLen na dstCap src,
   fun na dstCap src => decompressSizeHint_le_dstLen na dstCap src⟩

/-- Claim C3: when the one-shot `DecompressInto` inside `Decompress` fails,
`Decompress` returns the streaming fallback's result if the failure satisfies
`IsDstSizeTooSmallError`, and otherwise surfaces the error directly with a
nil buffer and no fallback. -/
theorem decompress_fallback (na : Native) (dstCap : Nat) (src : ByteSeq)
    (e : ZstdError) (hsrc : src ≠ [])
    (herr : (DecompressInto na (decompressDstLen na dstCap src) src).2.2 =
      some e) :
    (IsDstSizeTooSmallError (some e) = true →
      Decompress na dstCap src = na.streamReadAll src) ∧
    (IsDstSizeTooSmallError (some e) = false →
      Decompress na dstCap src = (none, some e)) := by
  have h0 : src.length ≠ 0 := fun h => hsrc (List.length_eq_zero.mp h)
  constructor
  · intro hsm
    unfold Decompress
    rw [if_neg h0, herr, if_neg (by simp), if_pos hsm]
  · intro hsm
    unfold Decompress
    rw [if_neg h0, herr, if_neg (by simp), if_neg (by simp [hsm])]

/-- Witness for `decompress_fallback` at the engine `natE`, whose one-shot
decompression always fails with the destination-too-small status. -/
theorem decompress_fallback_witness :
    Decompress natE 0 [9, 9] = (some [7], none) :=
  (decompress_fallback natE 0 [9, 9] ZstdError.dstSizeTooSmall (by decide)
    (by decide)).1 (by decide)

/-- Claim C4: for every byte sequence `s` and every level from `BestSpeed` to
`BestCompression`, given the native collaborator contracts for a payload `c`
of `s` (spec sections 4.3 and 6), `CompressLevel nil s level` succeeds with
`c` and `Decompress nil c` returns exactly `s` — the round trip through the
orchestration layer is the identity. -/
theorem roundTrip (na : Native) (s : ByteSeq) (level : Int) (c : ByteSeq)
    (hlo : BestSpeed ≤ level) (hhi : level ≤ BestCompression)
    (hc : CompressOK na s level c) (hd : DecompressOK na c s) :
    CompressLevel na 0 s level = (some c, none) ∧
    Decompress na 0 c = (some s, none) := by
  refine ⟨?_, Decompress_of_ok na 0 c s hd⟩
  unfold CompressLevel
  rw [hc.status]
  have hge : getError na ((c.length : Nat) : Int) = none := by
    simp [getError, hc.ok]
  rw [hge, if_pos rfl]
  have ht : (((c.length : Nat) : Int)).toNat = c.length := by omega
  rw [ht, hc.out]

/-- Witness for `roundTrip` at the engine `natW`, the plaintext `[7]`, level
3, and the payload `[1, 7]`. -/
theorem roundTrip_witness :
    CompressLevel natW 0 [7] 3 = (some [1, 7], none) ∧
    Decompress natW 0 [1, 7] = (some [7], none) :=
  roundTrip natW [7] 3 [1, 7] (by decide) (by decide) (natW_compressOK 3)
    natW_decompressOK

/-- Claim C7 (counterexample): the claim, quantified over all `s` including
the empty sequence, asserts that `DecompressInto` on a destination of exactly
`len s` bytes returns `(len s, nil)`.  At `s = []` the exact destination has
length 0, and zstd.go lines 244-251 panic on `&dst[0]` before any native
call: nothing is returned.  The engine `natZ` satisfies the full native
decompression contract for the payload `[1, 7]` of the empty plaintext, yet
the exact-size call returns no `(0, nil)` pair — it returns nothing. -/
theorem decompressInto_exact_claim_false :
    DecompressOK natZ [1, 7] [] ∧
    ¬ ∃ out : ByteSeq,
      DecompressIntoCall natZ [] [1, 7] = some (0, out, none) := by
  refine ⟨natZ_decompressOK, ?_⟩
  rintro ⟨out, h⟩
  unfold DecompressIntoCall at h
  rw [decompressIntoPtrs_nil_left] at h
  exact Option.noConfusion h

/-- Claim C7 (amended): under the native decompression contract for a payload
`c` of `s`, `DecompressInto` on a non-empty destination of exactly `len s`
bytes returns `(len s, nil)`, and on a non-empty destination strictly smaller
than `len s` returns an error satisfying `IsDstSizeTooSmallError`; on a
zero-length destination — in particular the exact-size destination for
`s = []` — it panics on `&dst[0]` before any native call and returns
nothing, for every engine. -/
theorem decompressInto_exact_amended (na : Native) (c s : ByteSeq)
    (hd : DecompressOK na c s) :
    (∀ dst : ByteSeq, dst ≠ [] → dst.length = s.length →
      ∃ r, DecompressIntoCall na dst c = some r ∧
        r.1 = (s.length : Int) ∧ r.2.2 = none) ∧
    (∀ dst : ByteSeq, dst ≠ [] → dst.length < s.length →
      ∃ r, DecompressIntoCall na dst c = some r ∧
        IsDstSizeTooSmallError r.2.2 = true) ∧
    (∀ m : Native, DecompressIntoCall m [] c = none) := by
  have hcall : ∀ dst : ByteSeq, dst ≠ [] →
      DecompressIntoCall na dst c =
        some (DecompressInto na dst.length c) := by
    intro dst hne
    unfold DecompressIntoCall
    rw [decompressIntoPtrs_of_ne dst c hne hd.nonempty]
  refine ⟨?_, ?_, ?_⟩
  · intro dst hne hlen
    obtain ⟨h1, -⟩ := hd.big dst.length (le_of_eq hlen.symm)
    refine ⟨DecompressInto na dst.length c, hcall dst hne, h1, ?_⟩
    simp [DecompressInto, h1, getError, hd.ok]
  · intro dst hne hlt
    obtain ⟨he, ht⟩ := hd.small dst.length hlt
    refine ⟨DecompressInto na dst.length c, hcall dst hne, ?_⟩
    simp [DecompressInto, getError, he, ht, IsDstSizeTooSmallError]
  · intro m
    unfold DecompressIntoCall
    rw [decompressIntoPtrs_nil_left]

/-- Witness for `decompressInto_exact_amended` at the engine `natW`, payload
`[1, 7]`, plaintext `[7]`, and the exactly-sized one-byte destination
`[5]`. -/
theorem decompressInto_exact_amended_witness :
    ∃ r, DecompressIntoCall natW [5] [1, 7] = some r ∧
      r.1 = (1 : Int) ∧ r.2.2 = none :=
  (decompressInto_exact_amended natW [1, 7] [7] natW_decompressOK).1 [5]
    (by decide) (by decide)

/-- Claim C8: for every level outside `[BestSpeed, BestCompression]`, with
the native engine rejecting out-of-range levels (spec section 3, modelled by
`RejectsInvalidLevels`), `CompressLevel` surfaces an error and returns a nil
buffer — the level is never silently clamped. -/
theorem compressLevel_invalid (na : Native) (dstCap : Nat) (src : ByteSeq)
    (level : Int) (hna : RejectsInvalidLevels na)
    (hlev : level < BestSpeed ∨ BestCompression < level) :
    ∃ e, CompressLevel na dstCap src level = (none, some e) := by
  have h := hna (CompressBound src.length) src level hlev
  by_cases hds :
      na.isDstTooSmall (na.compress (CompressBound src.length) src level).1
  · exact ⟨ZstdError.dstSizeTooSmall, by simp [CompressLevel, getError, h, hds]⟩
  · exact ⟨ZstdError.codec
      (na.errorName (na.compress (CompressBound src.length) src level).1),
      by simp [CompressLevel, getError, h, hds]⟩

/-- Witness for `compressLevel_invalid` at the engine `natR` and the
out-of-range level 21. -/
theorem compressLevel_invalid_witness :
    ∃ e, CompressLevel natR 0 [5] 21 = (none, some e) :=
  compressLevel_invalid natR 0 [5] 21 natR_rejects (Or.inr (by decide))

/-- Claim C6: `CompressScrollBatchBytes` on empty input returns an empty
buffer and nil error for every engine (no native call); on non-empty input it
calls the fixed-profile batch compression with a destination of exactly
`len src` bytes and, when the status is not an error, returns that
destination truncated to the reported count — whose length therefore never
exceeds `len src`. -/
theorem compressBatch_spec (na : Native) (src : ByteSeq)
    (hlen : ((na.compress2 src.length src).2).length = src.length)
    (hok : checkError na (na.compress2 src.length src).1 = none) :
    (∀ m : Native, CompressScrollBatchBytes m [] = (some [], none)) ∧
    (src ≠ [] → CompressScrollBatchBytes na src =
      (some (((na.compress2 src.length src).2).take
        (na.compress2 src.length src).1), none)) ∧
    (∀ out, CompressScrollBatchBytes na src = (some out, none) →
      out.length ≤ src.length) := by
  refine ⟨fun m => rfl, ?_, ?_⟩
  · intro hsrc
    have h0 : src.length ≠ 0 := fun h => hsrc (List.length_eq_zero.mp h)
    unfold CompressScrollBatchBytes
    rw [if_neg h0, if_pos hok]
  · intro out hout
    by_cases h0 : src.length = 0
    · unfold CompressScrollBatchBytes at hout
      rw [if_pos h0] at hout
      have hempty : ([] : ByteSeq) = out := by
        simpa using congrArg Prod.fst hout
      rw [← hempty]
      simp
    · unfold CompressScrollBatchBytes at hout
      rw [if_neg h0, if_pos hok] at hout
      have htake : ((na.compress2 src.length src).2).take
          (na.compress2 src.length src).1 = out := by
        simpa using congrArg Prod.fst hout
      rw [← htake, List.length_take, hlen]
      exact min_le_right _ _

/-- Witness for `compressBatch_spec` at the engine `natW` and the two-byte
source `[3, 4]`. -/
theorem compressBatch_spec_witness :
    CompressScrollBatchBytes natW [3, 4] = (some [0, 0], none) :=
  (compressBatch_spec natW [3, 4] (by decide) (by decide)).2.1 (by decide)

/-- Claim C9 (counterexample): the claim asserts that `DecompressInto` passes
an explicit null pointer with length zero when a buffer is empty; in fact
`DecompressInto` has no zero-length special case — with an empty destination
it panics on `&dst[0]` before any native call, so no call carrying a null
destination pointer exists. -/
theorem decompressInto_null_claim_false :
    ¬ ∃ p : CPtr × CPtr,
      decompressIntoPtrs [] [37] = some p ∧ p.1 = CPtr.null := by
  rintro ⟨p, hp, -⟩
  simp [decompressIntoPtrs, addrFirst] at hp

/-- Claim C9 (amended): `CompressLevel` passes an explicit null source
pointer (with length zero) when `len src = 0`; `DecompressInto`, by
contrast, performs no zero-length special case: it issues no native call at
all when either buffer is empty (a Go index panic precedes the call), and
whenever it does issue the call both pointers reference the first elements
of non-empty buffers — so no reference into an empty buffer, and no null
pointer, is ever passed by `DecompressInto`. -/
theorem zeroLenPtr_amended :
    (∀ src : ByteSeq, src.length = 0 → compressLevelSrcPtr src = CPtr.null) ∧
    (∀ dst src : ByteSeq,
      decompressIntoPtrs dst src = none ↔ (dst = [] ∨ src = [])) ∧
    (∀ (dst src : ByteSeq) (p : CPtr × CPtr),
      decompressIntoPtrs dst src = some p →
        p.1 = CPtr.ref dst ∧ p.2 = CPtr.ref src) := by
  refine ⟨?_, ?_, ?_⟩
  · intro src h
    simp [compressLevelSrcPtr, h]
  · intro dst src
    constructor
    · intro hnone
      by_cases hd : dst.length = 0
      · exact Or.inl (List.length_eq_zero.mp hd)
      · by_cases hs : src.length = 0
        · exact Or.inr (List.length_eq_zero.mp hs)
        · exfalso
          unfold decompressIntoPtrs addrFirst at hnone
          rw [if_neg hd, if_neg hs] at hnone
          simp at hnone
    · intro h
      rcases h with h | h
      · subst h
        simp [decompressIntoPtrs, addrFirst]
      · subst h
        by_cases hd : dst.length = 0 <;>
          simp [decompressIntoPtrs, addrFirst, hd]
  · intro dst src p hp
    by_cases hd : dst.length = 0
    · exfalso
      unfold decompressIntoPtrs addrFirst at hp
      rw [if_pos hd] at hp
      simp at hp
    · by_cases hs : src.length = 0
      · exfalso
        unfold decompressIntoPtrs addrFirst at hp
        rw [if_neg hd, if_pos hs] at hp
        simp at hp
      · unfold decompressIntoPtrs addrFirst at hp
        rw [if_neg hd, if_neg hs] at hp
        simp only [Option.some.injEq] at hp
        rw [← hp]
        exact ⟨rfl, rfl⟩
